import Mathlib

/-!
Shallow embedding of the request-admission layer of elastos/eth-faucet
(package `server`): the `Limiter` middleware (rate limiting keyed by claim
address and client IP, plus nonce-based duplicate-claim detection) and the
`Captcha` middleware.

Modelling conventions:
* Time is an abstract integer clock (`Int`); a `time.Duration` TTL is an
  integer number of time units.  The cache (`jellydator/ttlcache/v2`, with
  `SkipTTLExtensionOnHit(true)` as set in `NewLimiter`) is an association
  list from string keys to entries carrying an optional absolute expiry
  instant; an entry with no expiry never expires (a TTL-less `Set`).
* Cache values are heterogeneous in Go (`interface{}`); the limiter stores
  `bool` rate-limit markers and `uint64` nonces, so values are modelled by
  the sum type `CVal`.  Go's `cacheNonce == toNonce` interface comparison
  (dynamic type and value must agree) becomes equality with `CVal.nat n`.
* External effects are oracles passed in an `Env`: the outcome of
  `ethclient.Dial`, of `PendingNonceAt`, and the HTTP status the protected
  handler leaves in the `negroni.ResponseWriter`.
* A response rendered by the middleware (`renderJSON`) is modelled as the
  pair (status code, message).
-/

namespace EthFaucet

/-- A cache value: the Go code stores `bool` markers for rate-limit keys and
`uint64` pending nonces for nonce keys (`interface{}`-valued cache). -/
inductive CVal where
  | bool : Bool → CVal
  | nat : Nat → CVal
deriving DecidableEq

/-- A cache entry: the stored value and the absolute expiry instant
(`none` for entries stored without a TTL, which never expire). -/
structure Entry where
  value : CVal
  expireAt : Option Int
deriving DecidableEq

/-- The ttlcache contents: an association list from keys to entries. -/
def Cache : Type := List (String × Entry)

instance : DecidableEq Cache :=
  inferInstanceAs (DecidableEq (List (String × Entry)))

namespace TTLCache

/-- Raw lookup of the entry stored under a key, ignoring expiry. -/
def find : Cache → String → Option Entry
  | [], _ => none
  | (k2, e) :: rest, k => if k2 = k then some e else find rest k

/-- `Cache.Remove`: delete a key unconditionally (idempotent). -/
def Remove : Cache → String → Cache
  | [], _ => []
  | (k2, e) :: rest, k =>
      if k2 = k then Remove rest k else (k2, e) :: Remove rest k

/-- `Cache.SetWithTTL key value ttl` at instant `now`: overwrite the key with
an entry expiring at `now + ttl`. -/
def SetWithTTL (c : Cache) (k : String) (v : CVal) (ttl now : Int) : Cache :=
  (k, ⟨v, some (now + ttl)⟩) :: Remove c k

/-- TTL-less `Cache.Set key value`: overwrite the key with a never-expiring
entry. -/
def Set (c : Cache) (k : String) (v : CVal) : Cache :=
  (k, ⟨v, none⟩) :: Remove c k

/-- Whether an entry is still live at instant `now` (ttlcache's
`item.expired()`: an item with no TTL never expires; otherwise it is expired
once the clock passes `expireAt`). -/
def live (now : Int) (e : Entry) : Bool :=
  match e.expireAt with
  | none => true
  | some t => now ≤ t

/-- `Cache.Get`: the stored value, or `none` when the key is absent or its
entry has expired.  With `SkipTTLExtensionOnHit(true)` a read never extends
the TTL, so reads do not change the cache. -/
def Get (c : Cache) (now : Int) (k : String) : Option CVal :=
  match find c k with
  | some e => if live now e then some e.value else none
  | none => none

/-- `Cache.GetWithTTL`: like `Get` but also reporting the remaining TTL
(`time.Until(expireAt)` under `SkipTTLExtensionOnHit(true)`; `0` for
never-expiring entries). -/
def GetWithTTL (c : Cache) (now : Int) (k : String) : Option (CVal × Int) :=
  match find c k with
  | some e =>
      if live now e then
        some (e.value, match e.expireAt with | none => 0 | some t => t - now)
      else none
  | none => none

end TTLCache

/-! String helpers used by `getClientIPFromRequest`, modelled over `List Char`
(character-level; the Go code operates on UTF-8 bytes, which agrees on the
ASCII inputs relevant here). -/

/-- Whether a character is whitespace for Go's `strings.TrimSpace`
(`unicode.IsSpace`), restricted to the Latin-1 range. -/
def isSpaceChar (ch : Char) : Bool :=
  ch = ' ' || ch = Char.ofNat 9 || ch = Char.ofNat 10 || ch = Char.ofNat 11 ||
    ch = Char.ofNat 12 || ch = Char.ofNat 13 || ch = Char.ofNat 0x85 ||
    ch = Char.ofNat 0xA0

/-- Go `strings.TrimSpace`: drop leading and trailing whitespace. -/
def trimSpace (cs : List Char) : List Char :=
  List.dropWhile isSpaceChar ((List.dropWhile isSpaceChar cs.reverse).reverse)

/-- Go `strings.Split(s, ",")`: the substrings between commas, keeping empty
substrings; the split of the empty string is `[[]]`. -/
def splitOnComma : List Char → List (List Char)
  | [] => [[]]
  | c :: rest =>
      if c = ',' then [] :: splitOnComma rest
      else
        match splitOnComma rest with
        | [] => [[c]]
        | t :: ts => (c :: t) :: ts

/-- Index of the first occurrence of a character, if any. -/
def idxOf? : List Char → Char → Option Nat
  | [], _ => none
  | x :: rest, c =>
      if x = c then some 0 else (idxOf? rest c).map (· + 1)

/-- Index of the last occurrence of a character, if any (Go's
`last(hostPort, ':')` helper inside `net.SplitHostPort`). -/
def lastIdxOf (cs : List Char) (c : Char) : Option Nat :=
  (idxOf? cs.reverse c).map (fun i => cs.length - 1 - i)

/-- Go `net.SplitHostPort`, returning only the host on success and `none` on
any of its error returns (missing port, too many colons, stray brackets).
Transliterated from the standard library: the port starts after the last
colon; a leading bracket selects the `[host]:port` form. -/
def splitHostPort (cs : List Char) : Option (List Char) :=
  match lastIdxOf cs ':' with
  | none => none
  | some i =>
      match cs with
      | '[' :: _ =>
          match idxOf? cs ']' with
          | none => none
          | some e =>
              if e + 1 = cs.length then none
              else if e + 1 = i then
                if (cs.drop 1).contains '[' then none
                else if (cs.drop (e + 1)).contains ']' then none
                else some ((cs.drop 1).take (e - 1))
              else none
      | _ =>
          let host := cs.take i
          if host.contains ':' then none
          else if cs.contains '[' then none
          else if cs.contains ']' then none
          else some host

/-- The fallback client address: `net.SplitHostPort(r.RemoteAddr)`, and the
raw `RemoteAddr` unchanged when that call errors. -/
def remoteHost (remoteAddr : String) : String :=
  match splitHostPort remoteAddr.data with
  | some host => String.mk host
  | none => remoteAddr

/-- `getClientIPFromRequest` from the source: with a positive trusted-proxy
count and a non-empty X-Forwarded-For header, split the header on commas and
return the whitespace-trimmed part at index `len(parts) - proxyCount`,
clamped below at `0`; otherwise fall back to the host of `RemoteAddr`.
The absent header is modelled by `""`, as returned by Go's `Header.Get`. -/
def getClientIPFromRequest (proxyCount : Int) (xForwardedFor : String)
    (remoteAddr : String) : String :=
  if proxyCount > 0 then
    if xForwardedFor ≠ "" then
      let xForwardedForParts := splitOnComma xForwardedFor.data
      let partIndex : Int := (xForwardedForParts.length : Int) - proxyCount
      let partIndex : Int := if partIndex < 0 then 0 else partIndex
      String.mk (trimSpace (xForwardedForParts.getD partIndex.toNat []))
    else remoteHost remoteAddr
  else remoteHost remoteAddr

/-! The `Limiter` middleware. -/

/-- `http.StatusOK`. -/
def StatusOK : Int := 200

/-- `http.StatusTooManyRequests`. -/
def StatusTooManyRequests : Int := 429

/-- `http.StatusInternalServerError`. -/
def StatusInternalServerError : Int := 500

/-- The rate-limit rejection message rendered by `limitByKey`, naming the
remaining wait time (the Go code formats the duration rounded to seconds;
here the clock is already in whole units). -/
def rateLimitMessage (remaining : Int) : String :=
  "You have exceeded the rate limit. Please wait " ++ toString remaining ++
    "s before you try again"

/-- The duplicate-submission rejection message. -/
def duplicateMessage : String := "Please do not make repeated requests."

/-- The configuration fields of `Limiter` that affect its behaviour (the
provider URL only feeds `ethclient.Dial`, whose outcome is an oracle in
`Env`; the mutex serialises the admission section and has no pure content). -/
structure Limiter where
  proxyCount : Int
  ttl : Int
deriving DecidableEq

/-- The outcome of `readAddress`: a `*malformedRequest` error carrying a
status and message, some other error, or the parsed claim address.  The
collaborator itself lives outside this middleware; only the dispatch on its
result (via `errors.As`) is in scope. -/
inductive ParseError where
  | malformed (status : Int) (message : String)
  | other
deriving DecidableEq

/-- The inputs the limiter reads from an `*http.Request`. -/
structure Request where
  readAddress : Except ParseError String
  xForwardedFor : String
  remoteAddr : String

/-- Oracles for the external effects of one `ServeHTTP` run: the current
instant, whether `ethclient.Dial` succeeds, the result of `PendingNonceAt`
(`none` on error), and the status code the protected handler leaves in the
`negroni.ResponseWriter`. -/
structure Env where
  now : Int
  dialOk : Bool
  pendingNonceAt : Option Nat
  handlerStatus : Int

/-- The observable outcome of one `ServeHTTP` run: the final cache contents,
the response rendered by the middleware itself (`none` when the middleware
writes nothing, e.g. when the handler's own response stands), whether
`next.ServeHTTP` was invoked, and the cache contents at the instant it was
invoked. -/
structure ServeResult where
  cache : Cache
  response : Option (Int × String)
  handlerInvoked : Bool
  cacheAtHandler : Option Cache
deriving DecidableEq

/-- `Limiter.limitByKey`: when `GetWithTTL` finds a live record under the
key, render the 429 rate-limit response (reporting the remaining TTL) and
signal rejection; otherwise pass. -/
def limitByKey (cache : Cache) (now : Int) (key : String) : Option (Int × String) :=
  match TTLCache.GetWithTTL cache now key with
  | some (_, remaining) => some (StatusTooManyRequests, rateLimitMessage remaining)
  | none => none

/-- The admission critical section of `ServeHTTP` (the code between
`l.mutex.Lock()` and `l.mutex.Unlock()`): check the claim-address key, then
the client-IP key; on either hit return that rejection with the cache
untouched; otherwise write fresh rate-limit records under both keys with the
configured TTL. -/
def reserve (cache : Cache) (now ttl : Int) (address clientIP : String) :
    Except (Int × String) Cache :=
  match limitByKey cache now address with
  | some resp => Except.error resp
  | none =>
      match limitByKey cache now clientIP with
      | some resp => Except.error resp
      | none =>
          Except.ok (TTLCache.SetWithTTL
            (TTLCache.SetWithTTL cache address (CVal.bool true) ttl now)
            clientIP (CVal.bool true) ttl now)

/-- The tail of `ServeHTTP` after a successful `PendingNonceAt`: the cached
nonce is compared with the fetched one; on a match both rate-limit records
are evicted and the duplicate rejection is rendered; otherwise the handler
runs, a non-OK status rolls back both records, and an OK status stores the
fetched nonce under the nonce key with no TTL. -/
def afterLedger (reserved : Cache) (now : Int) (address clientIP : String)
    (toNonce : Nat) (handlerStatus : Int) : ServeResult :=
  let nonceKey := "nonce-" ++ address
  let isDup : Bool :=
    match TTLCache.Get reserved now nonceKey with
    | some v => decide (v = CVal.nat toNonce)
    | none => false
  if isDup then
    ⟨TTLCache.Remove (TTLCache.Remove reserved address) clientIP,
      some (StatusTooManyRequests, duplicateMessage), false, none⟩
  else if handlerStatus ≠ StatusOK then
    ⟨TTLCache.Remove (TTLCache.Remove reserved address) clientIP,
      none, true, some reserved⟩
  else
    ⟨TTLCache.Set reserved nonceKey (CVal.nat toNonce),
      none, true, some reserved⟩

/-- The tail of `ServeHTTP` after the admission section has reserved both
keys: a failing `ethclient.Dial` or `PendingNonceAt` returns silently with
no response and no further cache change; otherwise the nonce phase runs. -/
def afterReserve (reserved : Cache) (env : Env) (address clientIP : String) :
    ServeResult :=
  if env.dialOk = false then ⟨reserved, none, false, none⟩
  else
    match env.pendingNonceAt with
    | none => ⟨reserved, none, false, none⟩
    | some toNonce =>
        afterLedger reserved env.now address clientIP toNonce env.handlerStatus

/-- `Limiter.ServeHTTP`: dispatch on the `readAddress` outcome (malformed
requests surface their own status and message, other errors surface
`500 Internal Server Error`); with a non-positive TTL pass straight to the
handler; otherwise resolve the client IP and run admission, ledger and
nonce phases. -/
def Limiter.ServeHTTP (l : Limiter) (req : Request) (env : Env)
    (cache : Cache) : ServeResult :=
  match req.readAddress with
  | Except.error (ParseError.malformed st msg) => ⟨cache, some (st, msg), false, none⟩
  | Except.error ParseError.other =>
      ⟨cache, some (StatusInternalServerError, "Internal Server Error"), false, none⟩
  | Except.ok address =>
      if l.ttl ≤ 0 then ⟨cache, none, true, some cache⟩
      else
        let clientIP := getClientIPFromRequest l.proxyCount req.xForwardedFor req.remoteAddr
        match reserve cache env.now l.ttl address clientIP with
        | Except.error resp => ⟨cache, some resp, false, none⟩
        | Except.ok reserved => afterReserve reserved env address clientIP

/-- `N` admission sections for the same claim address executed back to back
(the limiter's mutex totally orders the critical sections of concurrent
requests, so any concurrent execution is one of these sequential orders);
returns how many requests were admitted past reservation, how many were
rejected with a 429 response, and the final cache. -/
def runReservations (now ttl : Int) (address : String) :
    List String → Cache → Nat × Nat × Cache
  | [], cache => (0, 0, cache)
  | ip :: rest, cache =>
      match reserve cache now ttl address ip with
      | Except.error resp =>
          let r := runReservations now ttl address rest cache
          (r.1, (if resp.1 = StatusTooManyRequests then r.2.1 + 1 else r.2.1), r.2.2)
      | Except.ok c2 =>
          let r := runReservations now ttl address rest c2
          (r.1 + 1, r.2.1, r.2.2)

/-! The `Captcha` middleware. -/

/-- The configuration of `Captcha` that affects control flow (the hcaptcha
client is an external collaborator; its verdict is an oracle). -/
structure Captcha where
  secret : String

/-- The observable outcome of one `Captcha.ServeHTTP` run. -/
structure CaptchaResult where
  response : Option (Int × String)
  nextInvoked : Bool
deriving DecidableEq

/-- `Captcha.ServeHTTP`: with an empty secret pass straight through; with a
non-empty secret call the verifier, pass on success, and on failure render
the fixed 429 message without invoking the next handler. -/
def Captcha.ServeHTTP (c : Captcha) (verifySuccess : Bool) : CaptchaResult :=
  if c.secret = "" then ⟨none, true⟩
  else if verifySuccess = false then
    ⟨some (StatusTooManyRequests, "Captcha verification failed, please try again"),
      false⟩
  else ⟨none, true⟩

/-! Lemmas about the cache operations. -/

namespace TTLCache

theorem find_Remove_self (c : Cache) (k : String) : find (Remove c k) k = none := by
  induction c with
  | nil => rfl
  | cons p rest ih =>
      obtain ⟨k2, e⟩ := p
      by_cases h : k2 = k <;> simp [Remove, find, h, ih]

theorem find_Remove_ne (c : Cache) {k k2 : String} (h : k2 ≠ k) :
    find (Remove c k) k2 = find c k2 := by
  induction c with
  | nil => rfl
  | cons p rest ih =>
      obtain ⟨k3, e⟩ := p
      by_cases h3 : k3 = k
      · have h32 : ¬ k3 = k2 := fun hh => h (hh.symm.trans h3)
        simp only [Remove, if_pos h3, find, if_neg h32, ih]
      · simp only [Remove, if_neg h3, find, ih]

theorem find_SetWithTTL_self (c : Cache) (k : String) (v : CVal) (ttl now : Int) :
    find (SetWithTTL c k v ttl now) k = some ⟨v, some (now + ttl)⟩ := by
  simp [SetWithTTL, find]

theorem find_SetWithTTL_ne (c : Cache) {k k2 : String} (v : CVal) (ttl now : Int)
    (h : k2 ≠ k) : find (SetWithTTL c k v ttl now) k2 = find c k2 := by
  have hk : ¬ k = k2 := fun hh => h hh.symm
  simp only [SetWithTTL, find, if_neg hk]
  exact find_Remove_ne c h

theorem find_Set_self (c : Cache) (k : String) (v : CVal) :
    find (Set c k v) k = some ⟨v, none⟩ := by
  simp [Set, find]

theorem find_Set_ne (c : Cache) {k k2 : String} (v : CVal) (h : k2 ≠ k) :
    find (Set c k v) k2 = find c k2 := by
  have hk : ¬ k = k2 := fun hh => h hh.symm
  simp only [Set, find, if_neg hk]
  exact find_Remove_ne c h

theorem GetWithTTL_of_find_live (c : Cache) (now : Int) (k : String) (e : Entry)
    (hf : find c k = some e) (hl : live now e = true) :
    GetWithTTL c now k =
      some (e.value, match e.expireAt with | none => 0 | some t => t - now) := by
  simp [GetWithTTL, hf, hl]

theorem Get_of_find_live (c : Cache) (now : Int) (k : String) (e : Entry)
    (hf : find c k = some e) (hl : live now e = true) :
    Get c now k = some e.value := by
  simp [Get, hf, hl]

/-- Removing two keys leaves both absent, whatever the starting cache. -/
theorem find_Remove_two (c : Cache) (a b : String) :
    find (Remove (Remove c a) b) a = none ∧ find (Remove (Remove c a) b) b = none := by
  refine ⟨?_, find_Remove_self _ b⟩
  by_cases hab : a = b
  · rw [hab]; exact find_Remove_self _ b
  · rw [find_Remove_ne _ hab, find_Remove_self]

/-- Removing two keys does not change any other key. -/
theorem find_Remove_two_ne (c : Cache) {a b k : String} (ha : k ≠ a) (hb : k ≠ b) :
    find (Remove (Remove c a) b) k = find c k := by
  rw [find_Remove_ne _ hb, find_Remove_ne _ ha]

end TTLCache

/-! Generic helper facts. -/

/-- No string equals itself with the nonce marker prepended, so a claim
address never collides with its own nonce key. -/
theorem ne_nonce_self (s : String) : s ≠ "nonce-" ++ s := by
  intro h
  have hl : s.length = ("nonce-" ++ s).length := congrArg String.length h
  rw [String.length_append] at hl
  have h6 : ("nonce-" : String).length = 6 := rfl
  omega

/-- After the admission section reserves both keys, each key holds a fresh
record expiring at `now + ttl` (also when the two keys coincide). -/
theorem find_reserved (cache : Cache) (now ttl : Int) (address clientIP : String) :
    TTLCache.find (TTLCache.SetWithTTL
        (TTLCache.SetWithTTL cache address (CVal.bool true) ttl now)
        clientIP (CVal.bool true) ttl now) address =
      some ⟨CVal.bool true, some (now + ttl)⟩ ∧
    TTLCache.find (TTLCache.SetWithTTL
        (TTLCache.SetWithTTL cache address (CVal.bool true) ttl now)
        clientIP (CVal.bool true) ttl now) clientIP =
      some ⟨CVal.bool true, some (now + ttl)⟩ := by
  refine ⟨?_, TTLCache.find_SetWithTTL_self _ _ _ _ _⟩
  by_cases h : address = clientIP
  · rw [h]; exact TTLCache.find_SetWithTTL_self _ _ _ _ _
  · rw [TTLCache.find_SetWithTTL_ne _ _ _ _ h, TTLCache.find_SetWithTTL_self]

/-- The reserved cache agrees with the original on every key other than the
two reserved ones. -/
theorem find_reserved_ne (cache : Cache) (now ttl : Int)
    {address clientIP k : String} (ha : k ≠ address) (hip : k ≠ clientIP) :
    TTLCache.find (TTLCache.SetWithTTL
        (TTLCache.SetWithTTL cache address (CVal.bool true) ttl now)
        clientIP (CVal.bool true) ttl now) k = TTLCache.find cache k := by
  rw [TTLCache.find_SetWithTTL_ne _ _ _ _ hip, TTLCache.find_SetWithTTL_ne _ _ _ _ ha]

/-- Caches agreeing on a key's raw entry agree on its `Get`. -/
theorem Get_congr {c c2 : Cache} (now : Int) (k : String)
    (h : TTLCache.find c k = TTLCache.find c2 k) :
    TTLCache.Get c now k = TTLCache.Get c2 now k := by
  simp only [TTLCache.Get, h]

/-- A character absent from a list is never found by `idxOf?`. -/
theorem idxOf?_eq_none {cs : List Char} {c : Char} (h : c ∉ cs) :
    idxOf? cs c = none := by
  induction cs with
  | nil => rfl
  | cons x rest ih =>
      have hx : ¬ x = c := fun he => h (he ▸ List.mem_cons_self x rest)
      simp [idxOf?, hx, ih (fun hm => h (List.mem_cons_of_mem x hm))]

/-! Unfolding lemmas for the phases of `Limiter.ServeHTTP`. -/

/-- With a parsed address and the limiter enabled, `ServeHTTP` is the
admission section followed by the post-admission phases. -/
theorem ServeHTTP_enabled (l : Limiter) (req : Request) (env : Env)
    (cache : Cache) (address : String)
    (hparse : req.readAddress = Except.ok address) (httl : 0 < l.ttl) :
    Limiter.ServeHTTP l req env cache =
      match reserve cache env.now l.ttl address
          (getClientIPFromRequest l.proxyCount req.xForwardedFor req.remoteAddr) with
      | Except.error resp => ⟨cache, some resp, false, none⟩
      | Except.ok reserved =>
          afterReserve reserved env address
            (getClientIPFromRequest l.proxyCount req.xForwardedFor req.remoteAddr) := by
  simp only [Limiter.ServeHTTP, hparse]
  rw [if_neg (not_le.mpr httl)]

/-- A live record under the claim-address key rejects with that key's
remaining TTL. -/
theorem reserve_hit_address {cache : Cache} {now ttl : Int} {address : String}
    (clientIP : String) {v : CVal} {rem : Int}
    (h : TTLCache.GetWithTTL cache now address = some (v, rem)) :
    reserve cache now ttl address clientIP =
      Except.error (StatusTooManyRequests, rateLimitMessage rem) := by
  simp [reserve, limitByKey, h]

/-- With the claim-address key clear, a live record under the client-IP key
rejects with that key's remaining TTL. -/
theorem reserve_hit_clientIP {cache : Cache} {now ttl : Int}
    {address clientIP : String} {v : CVal} {rem : Int}
    (h1 : TTLCache.GetWithTTL cache now address = none)
    (h2 : TTLCache.GetWithTTL cache now clientIP = some (v, rem)) :
    reserve cache now ttl address clientIP =
      Except.error (StatusTooManyRequests, rateLimitMessage rem) := by
  simp [reserve, limitByKey, h1, h2]

/-- With both keys clear, the admission section reserves both. -/
theorem reserve_miss {cache : Cache} {now ttl : Int} {address clientIP : String}
    (h1 : TTLCache.GetWithTTL cache now address = none)
    (h2 : TTLCache.GetWithTTL cache now clientIP = none) :
    reserve cache now ttl address clientIP =
      Except.ok (TTLCache.SetWithTTL
        (TTLCache.SetWithTTL cache address (CVal.bool true) ttl now)
        clientIP (CVal.bool true) ttl now) := by
  simp [reserve, limitByKey, h1, h2]

/-- A cached nonce equal to the fetched one triggers the duplicate path:
evict both reservation keys, respond 429, skip the handler. -/
theorem afterLedger_dup {reserved : Cache} {now : Int} {address : String}
    (clientIP : String) {n : Nat} (st : Int)
    (h : TTLCache.Get reserved now ("nonce-" ++ address) = some (CVal.nat n)) :
    afterLedger reserved now address clientIP n st =
      ⟨TTLCache.Remove (TTLCache.Remove reserved address) clientIP,
        some (StatusTooManyRequests, duplicateMessage), false, none⟩ := by
  simp [afterLedger, h]

/-- Without a matching cached nonce, the handler runs and a non-OK status
rolls back both reservation keys. -/
theorem afterLedger_handler_fail {reserved : Cache} {now : Int} {address : String}
    (clientIP : String) {n : Nat} {st : Int}
    (h : TTLCache.Get reserved now ("nonce-" ++ address) ≠ some (CVal.nat n))
    (hst : st ≠ StatusOK) :
    afterLedger reserved now address clientIP n st =
      ⟨TTLCache.Remove (TTLCache.Remove reserved address) clientIP,
        none, true, some reserved⟩ := by
  simp only [afterLedger]
  have hdup : (match TTLCache.Get reserved now ("nonce-" ++ address) with
      | some v => decide (v = CVal.nat n)
      | none => false) = false := by
    cases hg : TTLCache.Get reserved now ("nonce-" ++ address) with
    | none => rfl
    | some v =>
        simp only [decide_eq_false_iff_not]
        intro hv
        exact h (by rw [hg, hv])
  rw [hdup]
  simp [hst]

/-- Without a matching cached nonce, the handler runs and an OK status
stores the fetched nonce with no TTL. -/
theorem afterLedger_handler_success {reserved : Cache} {now : Int} {address : String}
    (clientIP : String) {n : Nat} {st : Int}
    (h : TTLCache.Get reserved now ("nonce-" ++ address) ≠ some (CVal.nat n))
    (hst : st = StatusOK) :
    afterLedger reserved now address clientIP n st =
      ⟨TTLCache.Set reserved ("nonce-" ++ address) (CVal.nat n),
        none, true, some reserved⟩ := by
  simp only [afterLedger]
  have hdup : (match TTLCache.Get reserved now ("nonce-" ++ address) with
      | some v => decide (v = CVal.nat n)
      | none => false) = false := by
    cases hg : TTLCache.Get reserved now ("nonce-" ++ address) with
    | none => rfl
    | some v =>
        simp only [decide_eq_false_iff_not]
        intro hv
        exact h (by rw [hg, hv])
  rw [hdup]
  simp [hst]

/-- Whatever cache the nonce phase hands to the handler is the reserved
cache itself. -/
theorem afterLedger_cacheAtHandler {reserved : Cache} {now : Int}
    {address clientIP : String} {n : Nat} {st : Int} {c : Cache}
    (h : (afterLedger reserved now address clientIP n st).cacheAtHandler = some c) :
    c = reserved := by
  by_cases hg : TTLCache.Get reserved now ("nonce-" ++ address) = some (CVal.nat n)
  · rw [afterLedger_dup clientIP st hg] at h
    simp at h
  · by_cases hst : st = StatusOK
    · rw [afterLedger_handler_success clientIP hg hst] at h
      simpa using h.symm
    · rw [afterLedger_handler_fail clientIP hg hst] at h
      simpa using h.symm

/-- The handler is only ever invoked on the reserved cache: whatever cache
`cacheAtHandler` reports is the admission section's output. -/
theorem afterReserve_cacheAtHandler {reserved : Cache} {env : Env}
    {address clientIP : String} {c : Cache}
    (h : (afterReserve reserved env address clientIP).cacheAtHandler = some c) :
    c = reserved := by
  unfold afterReserve at h
  by_cases hd : env.dialOk = false
  · rw [if_pos hd] at h
    simp at h
  · rw [if_neg hd] at h
    cases hn : env.pendingNonceAt with
    | none => rw [hn] at h; simp at h
    | some n => rw [hn] at h; exact afterLedger_cacheAtHandler h

/-- If the ledger phase fails, nothing further happens: no response, no
handler, the reserved cache stands. -/
theorem afterReserve_ledger_failed {reserved : Cache} {env : Env}
    {address clientIP : String}
    (h : env.dialOk = false ∨ env.pendingNonceAt = none) :
    afterReserve reserved env address clientIP = ⟨reserved, none, false, none⟩ := by
  unfold afterReserve
  rcases h with h | h
  · rw [if_pos h]
  · by_cases hd : env.dialOk = false
    · rw [if_pos hd]
    · rw [if_neg hd, h]

/-- A blocked claim-address key stops every admission attempt with a 429
rejection, leaving the cache unchanged. -/
theorem runReservations_blocked (now ttl : Int) (address : String)
    (ips : List String) (cache : Cache) (p : CVal × Int)
    (h : TTLCache.GetWithTTL cache now address = some p) :
    runReservations now ttl address ips cache = (0, ips.length, cache) := by
  obtain ⟨v, rem⟩ := p
  induction ips with
  | nil => rfl
  | cons ip rest ih =>
      simp only [runReservations, reserve_hit_address ip h, ih, List.length_cons]
      simp

/-! The claims. -/

/-- Claim C5: client address resolution.  With a non-positive proxy count or
an absent/empty forwarded-for header, the result is the host portion of the
remote socket address, and the raw remote address unchanged when it has no
port delimiter; with a positive proxy count and a non-empty header, the
result is the whitespace-trimmed comma-separated token at index
`max 0 (tokens - proxyCount)`; and the three concrete examples from the
specification hold. -/
theorem client_address_resolution (proxyCount : Int) (xff remoteAddr : String) :
    (proxyCount ≤ 0 ∨ xff = "" →
      getClientIPFromRequest proxyCount xff remoteAddr = remoteHost remoteAddr) ∧
    (':' ∉ remoteAddr.data → remoteHost remoteAddr = remoteAddr) ∧
    (0 < proxyCount → xff ≠ "" →
      getClientIPFromRequest proxyCount xff remoteAddr =
        String.mk (trimSpace ((splitOnComma xff.data).getD
          (max 0 (((splitOnComma xff.data).length : Int) - proxyCount)).toNat []))) ∧
    getClientIPFromRequest 2 "1.1.1.1, 2.2.2.2, 3.3.3.3" "9.9.9.9:1234" = "2.2.2.2" ∧
    getClientIPFromRequest 5 "1.1.1.1, 2.2.2.2, 3.3.3.3" "9.9.9.9:1234" = "1.1.1.1" ∧
    getClientIPFromRequest 0 "1.1.1.1, 2.2.2.2, 3.3.3.3" "9.9.9.9:1234" = "9.9.9.9" := by
  refine ⟨?_, ?_, ?_, by decide, by decide, by decide⟩
  · intro h
    rcases h with h | h
    · simp only [getClientIPFromRequest]
      rw [if_neg (not_lt.mpr h)]
    · by_cases hp : proxyCount > 0
      · simp only [getClientIPFromRequest]
        rw [if_pos hp, h]
        simp
      · simp only [getClientIPFromRequest]
        rw [if_neg hp]
  · intro h
    have hn : idxOf? remoteAddr.data.reverse ':' = none :=
      idxOf?_eq_none (fun hm => h (List.mem_reverse.mp hm))
    simp [remoteHost, splitHostPort, lastIdxOf, hn]
  · intro hp hx
    simp only [getClientIPFromRequest]
    rw [if_pos hp, if_pos hx]
    have hidx : (if ((splitOnComma xff.data).length : Int) - proxyCount < 0 then 0
        else ((splitOnComma xff.data).length : Int) - proxyCount) =
        max 0 (((splitOnComma xff.data).length : Int) - proxyCount) := by
      omega
    rw [hidx]

theorem client_address_resolution_witness :
    getClientIPFromRequest 3 "" "9.9.9.9:1234" = remoteHost "9.9.9.9:1234" ∧
    remoteHost "9.9.9.9" = "9.9.9.9" ∧
    getClientIPFromRequest 2 "1.1.1.1, 2.2.2.2, 3.3.3.3" "9.9.9.9:1234" =
      String.mk (trimSpace ((splitOnComma ("1.1.1.1, 2.2.2.2, 3.3.3.3" : String).data).getD
        (max 0 (((splitOnComma ("1.1.1.1, 2.2.2.2, 3.3.3.3" : String).data).length : Int)
          - 2)).toNat [])) :=
  ⟨(client_address_resolution 3 "" "9.9.9.9:1234").1 (Or.inr rfl),
   (client_address_resolution 3 "" "9.9.9.9").2.1 (by decide),
   (client_address_resolution 2 "1.1.1.1, 2.2.2.2, 3.3.3.3" "9.9.9.9:1234").2.2.1
     (by decide) (by decide)⟩

/-- Claim C8: the captcha gate.  An empty secret always passes the request
through regardless of the token verdict; a non-empty secret passes the
request through exactly when the verifier reports success, and on verifier
failure responds 429 with the fixed message without invoking the next
handler. -/
theorem captcha_gate (secret : String) (verifySuccess : Bool) :
    (secret = "" → Captcha.ServeHTTP ⟨secret⟩ verifySuccess = ⟨none, true⟩) ∧
    (secret ≠ "" →
      ((Captcha.ServeHTTP ⟨secret⟩ verifySuccess).nextInvoked = true ↔
        verifySuccess = true)) ∧
    (secret ≠ "" → verifySuccess = false →
      Captcha.ServeHTTP ⟨secret⟩ verifySuccess =
        ⟨some (StatusTooManyRequests,
          "Captcha verification failed, please try again"), false⟩) := by
  refine ⟨fun h => by simp [Captcha.ServeHTTP, h], fun h => ?_,
    fun h hv => by simp [Captcha.ServeHTTP, h, hv]⟩
  cases verifySuccess <;> simp [Captcha.ServeHTTP, h]

theorem captcha_gate_witness :
    ("" = "" → Captcha.ServeHTTP ⟨""⟩ false = ⟨none, true⟩) ∧
    ("" ≠ "" →
      ((Captcha.ServeHTTP ⟨""⟩ false).nextInvoked = true ↔ false = true)) ∧
    ("" ≠ "" → false = false →
      Captcha.ServeHTTP ⟨""⟩ false =
        ⟨some (StatusTooManyRequests,
          "Captcha verification failed, please try again"), false⟩) :=
  captcha_gate "" false

/-- Claim C9: the admission critical sections of concurrent requests are
serialised by the limiter's mutex (`l.mutex.Lock()` held across both key
checks and both key writes), so a concurrent execution is a back-to-back
run of admission sections; among any such run of requests sharing one claim
address, with a positive TTL and the address and the first request's client
IP initially clear, exactly one request is admitted past reservation. -/
theorem limiter_concurrent_admission_exactly_one (now ttl : Int)
    (address ip0 : String) (rest : List String) (cache : Cache)
    (httl : 0 < ttl)
    (haddr : TTLCache.GetWithTTL cache now address = none)
    (hip : TTLCache.GetWithTTL cache now ip0 = none) :
    (runReservations now ttl address (ip0 :: rest) cache).1 = 1 ∧
    (runReservations now ttl address (ip0 :: rest) cache).2.1 = rest.length := by
  have hres := @reserve_miss cache now ttl address ip0 haddr hip
  have hfind := (find_reserved cache now ttl address ip0).1
  have hlive : TTLCache.live now (⟨CVal.bool true, some (now + ttl)⟩ : Entry) = true := by
    simp only [TTLCache.live, decide_eq_true_eq]
    omega
  have hget := TTLCache.GetWithTTL_of_find_live _ now address _ hfind hlive
  simp only [runReservations, hres]
  rw [runReservations_blocked now ttl address rest _ _ hget]
  exact ⟨rfl, rfl⟩

theorem limiter_concurrent_admission_witness :
    (runReservations 0 60 "A" ("1.1.1.1" :: ["2.2.2.2", "3.3.3.3"]) []).1 = 1 ∧
    (runReservations 0 60 "A" ("1.1.1.1" :: ["2.2.2.2", "3.3.3.3"]) []).2.1 =
      (["2.2.2.2", "3.3.3.3"] : List String).length :=
  limiter_concurrent_admission_exactly_one 0 60 "A" "1.1.1.1" ["2.2.2.2", "3.3.3.3"] []
    (by decide) rfl rfl

/-- Claim C10: a `readAddress` failure that is not a malformed-request error
yields a 500 response with the generic message, no cache mutation, and no
handler invocation. -/
theorem limiter_internal_error_on_unknown_parse_failure
    (l : Limiter) (req : Request) (env : Env) (cache : Cache)
    (h : req.readAddress = Except.error ParseError.other) :
    Limiter.ServeHTTP l req env cache =
      ⟨cache, some (StatusInternalServerError, "Internal Server Error"),
        false, none⟩ := by
  simp only [Limiter.ServeHTTP, h]

theorem limiter_internal_error_witness :
    Limiter.ServeHTTP ⟨0, 60⟩ ⟨Except.error ParseError.other, "", "ip"⟩
        ⟨0, true, some 5, 200⟩ [] =
      ⟨[], some (StatusInternalServerError, "Internal Server Error"),
        false, none⟩ :=
  limiter_internal_error_on_unknown_parse_failure _ _ _ _ rfl

/-- Claim C1: the admission step with a positive TTL checks the
claim-address key first and the client-IP key second; a live record under
either yields a 429 naming that key's remaining wait time with the store
untouched and the handler skipped; otherwise fresh records with the
configured TTL sit under both keys in whatever cache the handler is later
invoked on. -/
theorem limiter_admission_check_then_reserve
    (l : Limiter) (req : Request) (env : Env) (cache : Cache)
    (address ip : String) (p q : CVal × Int) (cAt : Cache)
    (hip0 : ip = getClientIPFromRequest l.proxyCount req.xForwardedFor req.remoteAddr)
    (hparse : req.readAddress = Except.ok address) (httl : 0 < l.ttl) :
    (TTLCache.GetWithTTL cache env.now address = some p →
      Limiter.ServeHTTP l req env cache =
        ⟨cache, some (StatusTooManyRequests, rateLimitMessage p.2), false, none⟩) ∧
    (TTLCache.GetWithTTL cache env.now address = none →
      TTLCache.GetWithTTL cache env.now ip = some q →
      Limiter.ServeHTTP l req env cache =
        ⟨cache, some (StatusTooManyRequests, rateLimitMessage q.2), false, none⟩) ∧
    (TTLCache.GetWithTTL cache env.now address = none →
      TTLCache.GetWithTTL cache env.now ip = none →
      (Limiter.ServeHTTP l req env cache).cacheAtHandler = some cAt →
      TTLCache.find cAt address = some ⟨CVal.bool true, some (env.now + l.ttl)⟩ ∧
      TTLCache.find cAt ip = some ⟨CVal.bool true, some (env.now + l.ttl)⟩) := by
  obtain ⟨v, rem⟩ := p
  obtain ⟨v2, rem2⟩ := q
  have hs := ServeHTTP_enabled l req env cache address hparse httl
  rw [← hip0] at hs
  refine ⟨?_, ?_, ?_⟩
  · intro h
    simp only [hs, reserve_hit_address ip h]
  · intro h1 h2
    simp only [hs, reserve_hit_clientIP h1 h2]
  · intro h1 h2 hc
    rw [hs] at hc
    simp only [reserve_miss h1 h2] at hc
    rw [afterReserve_cacheAtHandler hc]
    exact find_reserved cache env.now l.ttl address ip

theorem limiter_admission_witness :
    Limiter.ServeHTTP ⟨0, 60⟩ ⟨Except.ok "A", "", "ip"⟩ ⟨10, true, some 5, 200⟩
        [("A", ⟨CVal.bool true, some 40⟩)] =
      ⟨[("A", ⟨CVal.bool true, some 40⟩)],
        some (StatusTooManyRequests, rateLimitMessage 30), false, none⟩ :=
  (limiter_admission_check_then_reserve ⟨0, 60⟩ ⟨Except.ok "A", "", "ip"⟩
      ⟨10, true, some 5, 200⟩ [("A", ⟨CVal.bool true, some 40⟩)] "A" "ip"
      (CVal.bool true, 30) (CVal.bool true, 0) []
      (by decide) rfl (by decide)).1 rfl

/-- Claim C2: past the reservation step with a successful ledger query, a
stored nonce equal to the fetched pending sequence number makes the limiter
evict both rate-limit records, respond 429 with the duplicate-submission
message, and skip the handler; a differing or absent stored nonce lets the
request proceed to the handler. -/
theorem limiter_duplicate_nonce_rejection
    (l : Limiter) (req : Request) (env : Env) (cache : Cache)
    (address ip : String) (n : Nat)
    (hip0 : ip = getClientIPFromRequest l.proxyCount req.xForwardedFor req.remoteAddr)
    (hparse : req.readAddress = Except.ok address) (httl : 0 < l.ttl)
    (haddr : TTLCache.GetWithTTL cache env.now address = none)
    (hipk : TTLCache.GetWithTTL cache env.now ip = none)
    (hdial : env.dialOk = true) (hnonce : env.pendingNonceAt = some n)
    (hcol : ip ≠ "nonce-" ++ address) :
    (TTLCache.Get cache env.now ("nonce-" ++ address) = some (CVal.nat n) →
      (Limiter.ServeHTTP l req env cache).response =
        some (StatusTooManyRequests, duplicateMessage) ∧
      (Limiter.ServeHTTP l req env cache).handlerInvoked = false ∧
      TTLCache.find (Limiter.ServeHTTP l req env cache).cache address = none ∧
      TTLCache.find (Limiter.ServeHTTP l req env cache).cache ip = none) ∧
    (TTLCache.Get cache env.now ("nonce-" ++ address) ≠ some (CVal.nat n) →
      (Limiter.ServeHTTP l req env cache).handlerInvoked = true) := by
  have hs := ServeHTTP_enabled l req env cache address hparse httl
  rw [← hip0] at hs
  have htf : ¬ (true = false) := by decide
  simp only [hs, reserve_miss haddr hipk, afterReserve, hdial, if_neg htf, hnonce]
  have hgr : TTLCache.Get
      (TTLCache.SetWithTTL (TTLCache.SetWithTTL cache address (CVal.bool true) l.ttl env.now)
        ip (CVal.bool true) l.ttl env.now) env.now ("nonce-" ++ address) =
      TTLCache.Get cache env.now ("nonce-" ++ address) :=
    Get_congr _ _ (find_reserved_ne cache _ _ (Ne.symm (ne_nonce_self address)) (Ne.symm hcol))
  constructor
  · intro hdup
    rw [afterLedger_dup ip env.handlerStatus (hgr.trans hdup)]
    exact ⟨rfl, rfl, (TTLCache.find_Remove_two _ address ip).1,
      (TTLCache.find_Remove_two _ address ip).2⟩
  · intro hnd
    have hnd2 := fun hh => hnd (hgr.symm.trans hh)
    by_cases hst : env.handlerStatus = StatusOK
    · rw [afterLedger_handler_success ip hnd2 hst]
    · rw [afterLedger_handler_fail ip hnd2 hst]

theorem limiter_duplicate_nonce_witness :
    (Limiter.ServeHTTP ⟨0, 60⟩ ⟨Except.ok "A", "", "ip"⟩ ⟨0, true, some 5, 200⟩
        [("nonce-A", ⟨CVal.nat 5, none⟩)]).response =
      some (StatusTooManyRequests, duplicateMessage) ∧
    (Limiter.ServeHTTP ⟨0, 60⟩ ⟨Except.ok "A", "", "ip"⟩ ⟨0, true, some 5, 200⟩
        [("nonce-A", ⟨CVal.nat 5, none⟩)]).handlerInvoked = false ∧
    TTLCache.find (Limiter.ServeHTTP ⟨0, 60⟩ ⟨Except.ok "A", "", "ip"⟩
        ⟨0, true, some 5, 200⟩ [("nonce-A", ⟨CVal.nat 5, none⟩)]).cache "A" = none ∧
    TTLCache.find (Limiter.ServeHTTP ⟨0, 60⟩ ⟨Except.ok "A", "", "ip"⟩
        ⟨0, true, some 5, 200⟩ [("nonce-A", ⟨CVal.nat 5, none⟩)]).cache "ip" = none :=
  (limiter_duplicate_nonce_rejection ⟨0, 60⟩ ⟨Except.ok "A", "", "ip"⟩
      ⟨0, true, some 5, 200⟩ [("nonce-A", ⟨CVal.nat 5, none⟩)] "A" "ip" 5
      (by decide) rfl (by decide) rfl rfl rfl rfl (by decide)).1 rfl

/-- Claim C3: whenever the protected handler was invoked (the limiter
enabled) and its resulting status is not OK, both the claim-address and
client-IP rate-limit records are absent from the store immediately
afterwards. -/
theorem limiter_rollback_on_handler_failure
    (l : Limiter) (req : Request) (env : Env) (cache : Cache)
    (address ip : String)
    (hip0 : ip = getClientIPFromRequest l.proxyCount req.xForwardedFor req.remoteAddr)
    (hparse : req.readAddress = Except.ok address) (httl : 0 < l.ttl)
    (hinv : (Limiter.ServeHTTP l req env cache).handlerInvoked = true)
    (hst : env.handlerStatus ≠ StatusOK) :
    TTLCache.find (Limiter.ServeHTTP l req env cache).cache address = none ∧
    TTLCache.find (Limiter.ServeHTTP l req env cache).cache ip = none := by
  have hs := ServeHTTP_enabled l req env cache address hparse httl
  rw [← hip0] at hs
  rw [hs] at hinv ⊢
  cases hres : reserve cache env.now l.ttl address ip with
  | error resp =>
      simp only [hres] at hinv
      simp at hinv
  | ok reserved =>
      simp only [hres] at hinv ⊢
      by_cases hd : env.dialOk = false
      · rw [afterReserve_ledger_failed (Or.inl hd)] at hinv
        simp at hinv
      · cases hn : env.pendingNonceAt with
        | none =>
            rw [afterReserve_ledger_failed (Or.inr hn)] at hinv
            simp at hinv
        | some n =>
            have hun : afterReserve reserved env address ip =
                afterLedger reserved env.now address ip n env.handlerStatus := by
              unfold afterReserve
              rw [if_neg hd, hn]
            rw [hun] at hinv ⊢
            by_cases hg : TTLCache.Get reserved env.now ("nonce-" ++ address) =
                some (CVal.nat n)
            · rw [afterLedger_dup ip env.handlerStatus hg] at hinv
              simp at hinv
            · rw [afterLedger_handler_fail ip hg hst]
              exact TTLCache.find_Remove_two reserved address ip

theorem limiter_rollback_witness :
    TTLCache.find (Limiter.ServeHTTP ⟨0, 60⟩ ⟨Except.ok "A", "", "ip"⟩
        ⟨0, true, some 5, 500⟩ []).cache "A" = none ∧
    TTLCache.find (Limiter.ServeHTTP ⟨0, 60⟩ ⟨Except.ok "A", "", "ip"⟩
        ⟨0, true, some 5, 500⟩ []).cache "ip" = none :=
  limiter_rollback_on_handler_failure ⟨0, 60⟩ ⟨Except.ok "A", "", "ip"⟩
    ⟨0, true, some 5, 500⟩ [] "A" "ip" (by decide) rfl (by decide)
    (by decide) (by decide)

/-- Claim C4: with the limiter enabled and no key collision between the
client IP and the nonce key, the nonce record for the claim address is
written exactly when the handler ran and ended with the OK status — and
then it holds the freshly fetched pending sequence number with no TTL; on a
failed handler outcome, and on every path that skips the handler, the nonce
record is exactly what it was before the request. -/
theorem limiter_nonce_written_iff_success
    (l : Limiter) (req : Request) (env : Env) (cache : Cache)
    (address ip : String) (n : Nat)
    (hip0 : ip = getClientIPFromRequest l.proxyCount req.xForwardedFor req.remoteAddr)
    (hparse : req.readAddress = Except.ok address) (httl : 0 < l.ttl)
    (hcol : ip ≠ "nonce-" ++ address) :
    (env.pendingNonceAt = some n →
      (Limiter.ServeHTTP l req env cache).handlerInvoked = true →
      env.handlerStatus = StatusOK →
      TTLCache.find (Limiter.ServeHTTP l req env cache).cache ("nonce-" ++ address) =
        some ⟨CVal.nat n, none⟩) ∧
    ((Limiter.ServeHTTP l req env cache).handlerInvoked = true →
      env.handlerStatus ≠ StatusOK →
      TTLCache.find (Limiter.ServeHTTP l req env cache).cache ("nonce-" ++ address) =
        TTLCache.find cache ("nonce-" ++ address)) ∧
    ((Limiter.ServeHTTP l req env cache).handlerInvoked = false →
      TTLCache.find (Limiter.ServeHTTP l req env cache).cache ("nonce-" ++ address) =
        TTLCache.find cache ("nonce-" ++ address)) := by
  have hka : "nonce-" ++ address ≠ address := Ne.symm (ne_nonce_self address)
  have hkip : "nonce-" ++ address ≠ ip := Ne.symm hcol
  have hs := ServeHTTP_enabled l req env cache address hparse httl
  rw [← hip0] at hs
  rw [hs]
  cases hres : reserve cache env.now l.ttl address ip with
  | error resp =>
      simp only [hres]
      exact ⟨fun _ hinv => by simp at hinv, fun hinv => by simp at hinv,
        fun _ => trivial⟩
  | ok reserved =>
      have hrsv : reserved = TTLCache.SetWithTTL
          (TTLCache.SetWithTTL cache address (CVal.bool true) l.ttl env.now)
          ip (CVal.bool true) l.ttl env.now := by
        cases haddr : TTLCache.GetWithTTL cache env.now address with
        | some pp =>
            rw [reserve_hit_address ip haddr] at hres
            cases hres
        | none =>
            cases hipk : TTLCache.GetWithTTL cache env.now ip with
            | some qq =>
                rw [reserve_hit_clientIP haddr hipk] at hres
                cases hres
            | none =>
                rw [reserve_miss haddr hipk] at hres
                cases hres
                rfl
      have hpre : TTLCache.find reserved ("nonce-" ++ address) =
          TTLCache.find cache ("nonce-" ++ address) := by
        rw [hrsv]
        exact find_reserved_ne cache _ _ hka hkip
      simp only [hres]
      by_cases hd : env.dialOk = false
      · rw [afterReserve_ledger_failed (Or.inl hd)]
        exact ⟨fun _ hinv => by simp at hinv, fun hinv => by simp at hinv,
          fun _ => hpre⟩
      · cases hn : env.pendingNonceAt with
        | none =>
            rw [afterReserve_ledger_failed (Or.inr hn)]
            exact ⟨fun _ hinv => by simp at hinv, fun hinv => by simp at hinv,
              fun _ => hpre⟩
        | some m =>
            have hun : afterReserve reserved env address ip =
                afterLedger reserved env.now address ip m env.handlerStatus := by
              unfold afterReserve
              rw [if_neg hd, hn]
            rw [hun]
            by_cases hg : TTLCache.Get reserved env.now ("nonce-" ++ address) =
                some (CVal.nat m)
            · rw [afterLedger_dup ip env.handlerStatus hg]
              refine ⟨fun _ hinv => by simp at hinv, fun hinv => by simp at hinv,
                fun _ => ?_⟩
              rw [TTLCache.find_Remove_two_ne reserved hka hkip]
              exact hpre
            · by_cases hstat : env.handlerStatus = StatusOK
              · rw [afterLedger_handler_success ip hg hstat]
                refine ⟨fun hn2 _ _ => ?_, fun _ hne => absurd hstat hne,
                  fun hinv => by simp at hinv⟩
                have hnm : n = m := (Option.some.inj hn2).symm
                rw [hnm]
                exact TTLCache.find_Set_self reserved _ _
              · rw [afterLedger_handler_fail ip hg hstat]
                refine ⟨fun _ _ hok => absurd hok hstat, fun _ _ => ?_,
                  fun hinv => by simp at hinv⟩
                rw [TTLCache.find_Remove_two_ne reserved hka hkip]
                exact hpre

theorem limiter_nonce_written_witness :
    TTLCache.find (Limiter.ServeHTTP ⟨0, 60⟩ ⟨Except.ok "A", "", "ip"⟩
        ⟨0, true, some 7, 200⟩ []).cache ("nonce-" ++ "A") =
      some ⟨CVal.nat 7, none⟩ :=
  (limiter_nonce_written_iff_success ⟨0, 60⟩ ⟨Except.ok "A", "", "ip"⟩
      ⟨0, true, some 7, 200⟩ [] "A" "ip" 7 (by decide) rfl (by decide)
      (by decide)).1 rfl (by decide) rfl

/-- Counterexample to claim C6 as stated: in a run that detects a duplicate
claim (stored nonce 5 equal to the fetched pending sequence number 5, for
address "A"), the limiter responds with the duplicate 429, yet the nonce
record "nonce-A" is still present afterwards — the code removes only the
claim-address and client-IP keys, never the nonce key. -/
theorem nonce_record_survives_duplicate_detection :
    (Limiter.ServeHTTP ⟨0, 60⟩ ⟨Except.ok "A", "", "9.9.9.9:1234"⟩
        ⟨0, true, some 5, 200⟩ [("nonce-A", ⟨CVal.nat 5, none⟩)]).response =
      some (StatusTooManyRequests, duplicateMessage) ∧
    TTLCache.find (Limiter.ServeHTTP ⟨0, 60⟩ ⟨Except.ok "A", "", "9.9.9.9:1234"⟩
        ⟨0, true, some 5, 200⟩ [("nonce-A", ⟨CVal.nat 5, none⟩)]).cache "nonce-A" =
      some ⟨CVal.nat 5, none⟩ := by
  exact ⟨rfl, rfl⟩

/-- Claim C6 as amended: whenever a duplicate claim is detected, the
claim-address and client-IP rate-limit records are evicted and the 429
duplicate response is rendered, but the nonce record for the claim address
is retained unchanged (it is not deleted). -/
theorem limiter_duplicate_retains_nonce_record
    (l : Limiter) (req : Request) (env : Env) (cache : Cache)
    (address ip : String) (n : Nat)
    (hip0 : ip = getClientIPFromRequest l.proxyCount req.xForwardedFor req.remoteAddr)
    (hparse : req.readAddress = Except.ok address) (httl : 0 < l.ttl)
    (haddr : TTLCache.GetWithTTL cache env.now address = none)
    (hipk : TTLCache.GetWithTTL cache env.now ip = none)
    (hdial : env.dialOk = true) (hnonce : env.pendingNonceAt = some n)
    (hcol : ip ≠ "nonce-" ++ address)
    (hdup : TTLCache.Get cache env.now ("nonce-" ++ address) = some (CVal.nat n)) :
    (Limiter.ServeHTTP l req env cache).response =
      some (StatusTooManyRequests, duplicateMessage) ∧
    TTLCache.find (Limiter.ServeHTTP l req env cache).cache address = none ∧
    TTLCache.find (Limiter.ServeHTTP l req env cache).cache ip = none ∧
    TTLCache.find (Limiter.ServeHTTP l req env cache).cache ("nonce-" ++ address) =
      TTLCache.find cache ("nonce-" ++ address) := by
  have hka : "nonce-" ++ address ≠ address := Ne.symm (ne_nonce_self address)
  have hkip : "nonce-" ++ address ≠ ip := Ne.symm hcol
  have hs := ServeHTTP_enabled l req env cache address hparse httl
  rw [← hip0] at hs
  have htf : ¬ (true = false) := by decide
  simp only [hs, reserve_miss haddr hipk, afterReserve, hdial, if_neg htf, hnonce]
  have hgr : TTLCache.Get
      (TTLCache.SetWithTTL (TTLCache.SetWithTTL cache address (CVal.bool true) l.ttl env.now)
        ip (CVal.bool true) l.ttl env.now) env.now ("nonce-" ++ address) =
      TTLCache.Get cache env.now ("nonce-" ++ address) :=
    Get_congr _ _ (find_reserved_ne cache _ _ hka hkip)
  rw [afterLedger_dup ip env.handlerStatus (hgr.trans hdup)]
  refine ⟨rfl, (TTLCache.find_Remove_two _ address ip).1,
    (TTLCache.find_Remove_two _ address ip).2, ?_⟩
  rw [TTLCache.find_Remove_two_ne _ hka hkip]
  exact find_reserved_ne cache _ _ hka hkip

theorem limiter_duplicate_retains_nonce_witness :
    (Limiter.ServeHTTP ⟨0, 60⟩ ⟨Except.ok "A", "", "ip"⟩ ⟨0, true, some 5, 200⟩
        [("nonce-A", ⟨CVal.nat 5, none⟩)]).response =
      some (StatusTooManyRequests, duplicateMessage) ∧
    TTLCache.find (Limiter.ServeHTTP ⟨0, 60⟩ ⟨Except.ok "A", "", "ip"⟩
        ⟨0, true, some 5, 200⟩ [("nonce-A", ⟨CVal.nat 5, none⟩)]).cache "A" = none ∧
    TTLCache.find (Limiter.ServeHTTP ⟨0, 60⟩ ⟨Except.ok "A", "", "ip"⟩
        ⟨0, true, some 5, 200⟩ [("nonce-A", ⟨CVal.nat 5, none⟩)]).cache "ip" = none ∧
    TTLCache.find (Limiter.ServeHTTP ⟨0, 60⟩ ⟨Except.ok "A", "", "ip"⟩
        ⟨0, true, some 5, 200⟩ [("nonce-A", ⟨CVal.nat 5, none⟩)]).cache ("nonce-" ++ "A") =
      TTLCache.find [("nonce-A", ⟨CVal.nat 5, none⟩)] ("nonce-" ++ "A") :=
  limiter_duplicate_retains_nonce_record ⟨0, 60⟩ ⟨Except.ok "A", "", "ip"⟩
    ⟨0, true, some 5, 200⟩ [("nonce-A", ⟨CVal.nat 5, none⟩)] "A" "ip" 5
    (by decide) rfl (by decide) rfl rfl rfl rfl (by decide) rfl

/-- Claim C7: past the reservation step, a failure to connect to the ledger
or to fetch the pending sequence number makes the limiter return with no
response written and no handler invocation, while both freshly reserved
rate-limit records remain in the store with their full TTL, blocking both
keys at every instant up to expiry. -/
theorem limiter_ledger_failure_silent
    (l : Limiter) (req : Request) (env : Env) (cache : Cache)
    (address ip : String) (t : Int)
    (hip0 : ip = getClientIPFromRequest l.proxyCount req.xForwardedFor req.remoteAddr)
    (hparse : req.readAddress = Except.ok address) (httl : 0 < l.ttl)
    (haddr : TTLCache.GetWithTTL cache env.now address = none)
    (hipk : TTLCache.GetWithTTL cache env.now ip = none)
    (hfail : env.dialOk = false ∨ env.pendingNonceAt = none)
    (ht : t ≤ env.now + l.ttl) :
    (Limiter.ServeHTTP l req env cache).response = none ∧
    (Limiter.ServeHTTP l req env cache).handlerInvoked = false ∧
    TTLCache.find (Limiter.ServeHTTP l req env cache).cache address =
      some ⟨CVal.bool true, some (env.now + l.ttl)⟩ ∧
    TTLCache.find (Limiter.ServeHTTP l req env cache).cache ip =
      some ⟨CVal.bool true, some (env.now + l.ttl)⟩ ∧
    (TTLCache.GetWithTTL (Limiter.ServeHTTP l req env cache).cache t address).isSome = true ∧
    (TTLCache.GetWithTTL (Limiter.ServeHTTP l req env cache).cache t ip).isSome = true := by
  have hs := ServeHTTP_enabled l req env cache address hparse httl
  rw [← hip0] at hs
  simp only [hs, reserve_miss haddr hipk]
  rw [afterReserve_ledger_failed hfail]
  have hfound := find_reserved cache env.now l.ttl address ip
  have hlive : TTLCache.live t (⟨CVal.bool true, some (env.now + l.ttl)⟩ : Entry) = true := by
    simp only [TTLCache.live, decide_eq_true_eq]
    exact ht
  refine ⟨rfl, rfl, hfound.1, hfound.2, ?_, ?_⟩
  · rw [TTLCache.GetWithTTL_of_find_live _ t address _ hfound.1 hlive]
    rfl
  · rw [TTLCache.GetWithTTL_of_find_live _ t ip _ hfound.2 hlive]
    rfl

theorem limiter_ledger_failure_witness :
    (Limiter.ServeHTTP ⟨0, 60⟩ ⟨Except.ok "A", "", "ip"⟩
        ⟨0, false, some 5, 200⟩ []).response = none ∧
    (Limiter.ServeHTTP ⟨0, 60⟩ ⟨Except.ok "A", "", "ip"⟩
        ⟨0, false, some 5, 200⟩ []).handlerInvoked = false ∧
    TTLCache.find (Limiter.ServeHTTP ⟨0, 60⟩ ⟨Except.ok "A", "", "ip"⟩
        ⟨0, false, some 5, 200⟩ []).cache "A" =
      some ⟨CVal.bool true, some (0 + 60)⟩ ∧
    TTLCache.find (Limiter.ServeHTTP ⟨0, 60⟩ ⟨Except.ok "A", "", "ip"⟩
        ⟨0, false, some 5, 200⟩ []).cache "ip" =
      some ⟨CVal.bool true, some (0 + 60)⟩ ∧
    (TTLCache.GetWithTTL (Limiter.ServeHTTP ⟨0, 60⟩ ⟨Except.ok "A", "", "ip"⟩
        ⟨0, false, some 5, 200⟩ []).cache 59 "A").isSome = true ∧
    (TTLCache.GetWithTTL (Limiter.ServeHTTP ⟨0, 60⟩ ⟨Except.ok "A", "", "ip"⟩
        ⟨0, false, some 5, 200⟩ []).cache 59 "ip").isSome = true :=
  limiter_ledger_failure_silent ⟨0, 60⟩ ⟨Except.ok "A", "", "ip"⟩
    ⟨0, false, some 5, 200⟩ [] "A" "ip" 59 (by decide) rfl (by decide)
    rfl rfl (Or.inl rfl) (by decide)

end EthFaucet
